import Mathlib

/-!
Shallow embedding of `hybrid_reimbursement.py`: a hybrid multi-strategy
reimbursement calculator.  Training cases are records of rational numbers,
the training store is the load-ordered list of cases, and every estimator
of the ensemble is translated directly from the Python source.  Python
floats are modelled by exact rationals, `round(x, 2)` by round-half-to-even
at two decimal places, and the input-coercion boundary by an explicit
`Raw` type (a value that coerces to a rational, or one whose coercion
fails).
-/

namespace Hybrid

/-- One historical training case as loaded from the dataset: trip days,
miles traveled, receipt total and the observed reimbursement output. -/
structure Case where
  days : ℚ
  miles : ℚ
  receipts : ℚ
  output : ℚ
deriving DecidableEq

/-- The training store: the list of cases in load order. -/
abbrev Store := List Case

/-- Predicate of `find_exact_match`: same day count, miles and receipts
within one unit (`case['days'] == days and abs(...) <= 1 and abs(...) <= 1`). -/
def exactMatchB (days : ℤ) (miles receipts : ℚ) (c : Case) : Bool :=
  decide (c.days = (days : ℚ)) && decide (|c.miles - miles| ≤ 1) &&
    decide (|c.receipts - receipts| ≤ 1)

/-- `find_exact_match`: output of the first case matching within tolerance 1,
else no result. -/
def find_exact_match (store : Store) (days : ℤ) (miles receipts : ℚ) : Option ℚ :=
  (store.find? (exactMatchB days miles receipts)).map Case.output

/-- Predicate of `find_similar_cases`: days within 1, miles and receipts
within `tolerance`. -/
def similarB (days : ℤ) (miles receipts tolerance : ℚ) (c : Case) : Bool :=
  decide (|c.days - (days : ℚ)| ≤ 1) && decide (|c.miles - miles| ≤ tolerance) &&
    decide (|c.receipts - receipts| ≤ tolerance)

/-- `find_similar_cases`: unweighted mean of the outputs of all cases within
the tolerance band, or no result when none qualify. -/
def find_similar_cases (store : Store) (days : ℤ) (miles receipts tolerance : ℚ) :
    Option ℚ :=
  let similar := store.filter (similarB days miles receipts tolerance)
  if similar.isEmpty then none
  else some ((similar.map Case.output).sum / (similar.length : ℚ))

/-- The duration index bucket `day_patterns[days]`: all cases whose day
count equals the request's, in load order. -/
def sameDayCases (store : Store) (days : ℤ) : List Case :=
  store.filter (fun c => decide (c.days = (days : ℚ)))

/-- The KNN similarity score `|Δmiles|/100 + |Δreceipts|/100`. -/
def knnScore (miles receipts : ℚ) (c : Case) : ℚ :=
  |c.miles - miles| / 100 + |c.receipts - receipts| / 100

/-- The five lowest-scoring same-day candidates of
`predict_by_duration_pattern` (stable ascending sort by score, take 5). -/
def topCandidates (store : Store) (days : ℤ) (miles receipts : ℚ) :
    List (ℚ × Case) :=
  (((sameDayCases store days).map (fun c => (knnScore miles receipts c, c))).mergeSort
      (fun a b => decide (a.1 ≤ b.1))).take 5

/-- `predict_by_duration_pattern`: inverse-distance weighted mean of the
outputs of the at most five most similar same-day cases; no result when no
case shares the day count. -/
def predict_by_duration_pattern (store : Store) (days : ℤ) (miles receipts : ℚ) :
    Option ℚ :=
  if (sameDayCases store days).isEmpty then none
  else
    let top := topCandidates store days miles receipts
    if top.isEmpty then none
    else
      let weights := top.map (fun p => 1 / (p.1 + 0.01))
      let total := weights.sum
      if 0 < total then
        some ((List.zipWith (fun w p => w * p.2.output) weights top).sum / total)
      else none

/-- The fixed receipt bucket table. -/
def receipt_buckets : List (ℚ × ℚ) :=
  [(0, 50), (50, 100), (100, 200), (200, 300), (300, 500),
   (500, 800), (800, 1200), (1200, 1600), (1600, 2000), (2000, 3000)]

/-- In-bucket filter of `predict_by_receipt_bucket`: days within 2, miles
within 100. -/
def bucketFilterB (days : ℤ) (miles : ℚ) (c : Case) : Bool :=
  decide (|c.days - (days : ℚ)| ≤ 2) && decide (|c.miles - miles| ≤ 100)

/-- The bucket loop of `predict_by_receipt_bucket`: scan the bucket table in
order; in a non-empty bucket containing `receipts`, average the outputs of
the cases passing the day/mile filter; keep scanning when that filter leaves
nothing. -/
def bucketLoop (store : Store) (days : ℤ) (miles receipts : ℚ) :
    List (ℚ × ℚ) → Option ℚ
  | [] => none
  | (low, high) :: rest =>
    let bucket := store.filter (fun c => decide (low ≤ c.receipts ∧ c.receipts < high))
    if low ≤ receipts ∧ receipts < high ∧ ¬bucket.isEmpty then
      let similar := bucket.filter (bucketFilterB days miles)
      if similar.isEmpty then bucketLoop store days miles receipts rest
      else some ((similar.map Case.output).sum / (similar.length : ℚ))
    else bucketLoop store days miles receipts rest

/-- `predict_by_receipt_bucket`: run the bucket loop over the fixed table. -/
def predict_by_receipt_bucket (store : Store) (days : ℤ) (miles receipts : ℚ) :
    Option ℚ :=
  bucketLoop store days miles receipts receipt_buckets

/-- `linear_regression_predict`: the fixed-coefficient linear formula. -/
def linear_regression_predict (days : ℤ) (miles receipts : ℚ) : ℚ :=
  50.0505 * (days : ℚ) + 0.4456 * miles + 0.3829 * receipts + 266.7077

/-- `enhanced_linear_predict`: the linear formula plus the pattern-based
adjustments, each condition tested against the original inputs. -/
def enhanced_linear_predict (days : ℤ) (miles receipts : ℚ) : ℚ :=
  let base := linear_regression_predict days miles receipts
  let base :=
    if 1500 < receipts then
      if days ≤ 3 then base - (receipts - 1500) * 0.3
      else base - (receipts - 1500) * 0.1
    else base
  let base := if 4 ≤ days ∧ days ≤ 6 then base + (days : ℚ) * 15 else base
  let base := if 10 ≤ days then base + ((days : ℚ) - 9) * 20 else base
  let base :=
    if 1000 < miles then
      if 7 ≤ days then base + (miles - 1000) * 0.1
      else base - (miles - 1000) * 0.05
    else base
  base

/-- `predict`: the ensemble.  Each estimator that returns a result
contributes its prediction with its fixed weight; the two linear estimators
always contribute; the result is the weighted average. -/
def predict (store : Store) (days : ℤ) (miles receipts : ℚ) : ℚ :=
  let exact := find_exact_match store days miles receipts
  let similar := find_similar_cases store days miles receipts 20
  let duration_pred := predict_by_duration_pattern store days miles receipts
  let bucket_pred := predict_by_receipt_bucket store days miles receipts
  let enhanced_linear := enhanced_linear_predict days miles receipts
  let basic_linear := linear_regression_predict days miles receipts
  let predictions : List ℚ :=
    (exact.elim [] fun p => [p]) ++ (similar.elim [] fun p => [p]) ++
      (duration_pred.elim [] fun p => [p]) ++ (bucket_pred.elim [] fun p => [p]) ++
      [enhanced_linear, basic_linear]
  let weights : List ℚ :=
    (exact.elim [] fun _ => [10.0]) ++ (similar.elim [] fun _ => [5.0]) ++
      (duration_pred.elim [] fun _ => [3.0]) ++ (bucket_pred.elim [] fun _ => [2.0]) ++
      [1.0, 0.5]
  if predictions.isEmpty || weights.isEmpty then basic_linear
  else (List.zipWith (fun p w => p * w) predictions weights).sum / weights.sum

/-- Round-half-to-even to an integer, the tie-breaking rule of Python's
built-in `round`. -/
def roundHalfEvenInt (q : ℚ) : ℤ :=
  let f := ⌊q⌋
  let r := q - (f : ℚ)
  if r < 1 / 2 then f
  else if 1 / 2 < r then f + 1
  else if f % 2 = 0 then f else f + 1

/-- Python's `round(q, 2)`. -/
def round2 (q : ℚ) : ℚ := (roundHalfEvenInt (q * 100) : ℚ) / 100

/-- A raw input at the coercion boundary: either a value that coerces to a
rational, or input whose numeric coercion fails. -/
inductive Raw where
  | num : ℚ → Raw
  | bad : Raw

/-- Python's `int(...)` truncation toward zero on a rational. -/
def pytrunc (q : ℚ) : ℤ := if q < 0 then ⌈q⌉ else ⌊q⌋

/-- Coercion of the day input: `max(0, int(float(x)))`, or failure. -/
def coerceDays : Raw → Option ℤ
  | .num q => some (max 0 (pytrunc q))
  | .bad => none

/-- Coercion of a real-valued input: `max(0.0, float(x))`, or failure. -/
def coerceReal : Raw → Option ℚ
  | .num q => some (max 0 q)
  | .bad => none

/-- The `except` branch of `calculate_reimbursement`: re-coerce the raw
inputs and apply the basic linear formula, else the fixed constant 300. -/
def basicFallback (a b c : Raw) : ℚ :=
  match coerceDays a, coerceReal b, coerceReal c with
  | some d, some m, some r => round2 (linear_regression_predict d m r)
  | _, _, _ => 300.0

/-- `calculate_reimbursement`: coerce the three raw inputs, run the hybrid
prediction, clamp to `[50, 3000]` and round to two decimals; on coercion
failure fall back to `basicFallback`. -/
def calculate_reimbursement (store : Store) (a b c : Raw) : ℚ :=
  match coerceDays a, coerceReal b, coerceReal c with
  | some d, some m, some r => round2 (min (max (predict store d m r) 50.0) 3000.0)
  | _, _, _ => basicFallback a b c

/-!
Helper lemmas shared by the claim theorems: arithmetic facts about the
rounding and clamping post-processing, characterizations of the estimators,
and bounds on weighted and unweighted averages over lists.
-/

lemma ite_sub_sub_split (A B : Prop) [Decidable A] [Decidable B] (x p q : ℚ) :
    (if A then (if B then x - p else x - q) else x) =
      x + (if A ∧ B then -p else 0) + (if A ∧ ¬B then -q else 0) := by
  by_cases hA : A <;> by_cases hB : B <;> simp [hA, hB] <;> ring

lemma ite_add_sub_split (A B : Prop) [Decidable A] [Decidable B] (x p q : ℚ) :
    (if A then (if B then x + p else x - q) else x) =
      x + (if A ∧ B then p else 0) + (if A ∧ ¬B then -q else 0) := by
  by_cases hA : A <;> by_cases hB : B <;> simp [hA, hB] <;> ring

lemma ite_add_split (A : Prop) [Decidable A] (x p : ℚ) :
    (if A then x + p else x) = x + (if A then p else 0) := by
  by_cases hA : A <;> simp [hA]

lemma roundHalfEvenInt_le (q : ℚ) (N : ℤ) (h : q ≤ (N : ℚ)) : roundHalfEvenInt q ≤ N := by
  have hf : ⌊q⌋ ≤ N := by
    have := Int.floor_le_floor h
    simpa using this
  have hfq : (⌊q⌋ : ℚ) ≤ q := Int.floor_le q
  simp only [roundHalfEvenInt]
  split_ifs with h1 h2 h3
  · exact hf
  · have h1' : (1 : ℚ) / 2 ≤ q - (⌊q⌋ : ℚ) := not_lt.mp h1
    have hflt : (⌊q⌋ : ℚ) < (N : ℚ) := by linarith
    have : ⌊q⌋ < N := by exact_mod_cast hflt
    omega
  · exact hf
  · have h1' : (1 : ℚ) / 2 ≤ q - (⌊q⌋ : ℚ) := not_lt.mp h1
    have hflt : (⌊q⌋ : ℚ) < (N : ℚ) := by linarith
    have : ⌊q⌋ < N := by exact_mod_cast hflt
    omega

lemma le_roundHalfEvenInt (q : ℚ) (N : ℤ) (h : (N : ℚ) ≤ q) : N ≤ roundHalfEvenInt q := by
  have hf : N ≤ ⌊q⌋ := Int.le_floor.mpr h
  simp only [roundHalfEvenInt]
  split_ifs <;> omega

lemma round2_clamp_bounds (p : ℚ) :
    ∃ n : ℤ, round2 (min (max p 50.0) 3000.0) = (n : ℚ) / 100
      ∧ 50 ≤ (n : ℚ) / 100 ∧ (n : ℚ) / 100 ≤ 3000 := by
  set x := min (max p 50.0) 3000.0 with hx
  have hx1 : (50 : ℚ) ≤ x := by
    rw [hx]
    refine le_min (le_trans (by norm_num) (le_max_right p 50.0)) (by norm_num)
  have hx2 : x ≤ 3000 := le_trans (min_le_right _ _) (by norm_num)
  refine ⟨roundHalfEvenInt (x * 100), rfl, ?_, ?_⟩
  · have h1 : (5000 : ℤ) ≤ roundHalfEvenInt (x * 100) :=
      le_roundHalfEvenInt _ 5000 (by push_cast; linarith)
    rw [le_div_iff₀ (by norm_num : (0:ℚ) < 100)]
    calc (50 : ℚ) * 100 = ((5000 : ℤ) : ℚ) := by norm_num
    _ ≤ _ := by exact_mod_cast h1
  · have h1 : roundHalfEvenInt (x * 100) ≤ (300000 : ℤ) :=
      roundHalfEvenInt_le _ 300000 (by push_cast; linarith)
    rw [div_le_iff₀ (by norm_num : (0:ℚ) < 100)]
    calc ((roundHalfEvenInt (x * 100) : ℚ)) ≤ ((300000 : ℤ) : ℚ) := by exact_mod_cast h1
    _ = 3000 * 100 := by norm_num

lemma coerceDays_nat (days : ℕ) : coerceDays (.num (days : ℚ)) = some (days : ℤ) := by
  have hnn : ¬ ((days : ℚ) < 0) := not_lt.mpr (by positivity)
  simp [coerceDays, pytrunc, hnn, Int.floor_natCast]

lemma coerceReal_nonneg (q : ℚ) (h : 0 ≤ q) : coerceReal (.num q) = some q := by
  simp [coerceReal, max_eq_right h]

set_option maxHeartbeats 1000000 in
lemma predict_eq (store : Store) (days : ℤ) (miles receipts : ℚ) :
    predict store days miles receipts =
      ((find_exact_match store days miles receipts).elim 0 (fun p => p * 10)
        + (find_similar_cases store days miles receipts 20).elim 0 (fun p => p * 5)
        + (predict_by_duration_pattern store days miles receipts).elim 0 (fun p => p * 3)
        + (predict_by_receipt_bucket store days miles receipts).elim 0 (fun p => p * 2)
        + enhanced_linear_predict days miles receipts * 1
        + linear_regression_predict days miles receipts * 0.5)
      / ((if (find_exact_match store days miles receipts).isSome then 10 else 0)
        + (if (find_similar_cases store days miles receipts 20).isSome then 5 else 0)
        + (if (predict_by_duration_pattern store days miles receipts).isSome then 3 else 0)
        + (if (predict_by_receipt_bucket store days miles receipts).isSome then 2 else 0)
        + 1 + 0.5) := by
  simp only [predict]
  rcases find_exact_match store days miles receipts with _ | p1 <;>
    rcases find_similar_cases store days miles receipts 20 with _ | p2 <;>
    rcases predict_by_duration_pattern store days miles receipts with _ | p3 <;>
    rcases predict_by_receipt_bucket store days miles receipts with _ | p4 <;>
    (simp; try ring_nf)

lemma topCandidates_length (store : Store) (days : ℤ) (miles receipts : ℚ) :
    (topCandidates store days miles receipts).length =
      min 5 (sameDayCases store days).length := by
  simp [topCandidates, List.length_take, List.length_mergeSort]

lemma topCandidates_ne_nil (store : Store) (days : ℤ) (miles receipts : ℚ)
    (h : sameDayCases store days ≠ []) :
    topCandidates store days miles receipts ≠ [] := by
  have hpos : 0 < (sameDayCases store days).length := List.length_pos.mpr h
  intro hnil
  have hlen := topCandidates_length store days miles receipts
  rw [hnil] at hlen
  simp at hlen
  omega

lemma topCandidates_score_nonneg (store : Store) (days : ℤ) (miles receipts : ℚ)
    (p : ℚ × Case) (hp : p ∈ topCandidates store days miles receipts) : 0 ≤ p.1 := by
  have hp' := List.mem_of_mem_take hp
  rw [List.mem_mergeSort] at hp'
  obtain ⟨c, -, rfl⟩ := List.mem_map.mp hp'
  simp only [knnScore]
  positivity

lemma knn_total_pos (store : Store) (days : ℤ) (miles receipts : ℚ)
    (h : sameDayCases store days ≠ []) :
    0 < ((topCandidates store days miles receipts).map (fun p => 1 / (p.1 + 0.01))).sum := by
  apply List.sum_pos
  · intro w hw
    obtain ⟨p, hp, rfl⟩ := List.mem_map.mp hw
    have hs := topCandidates_score_nonneg store days miles receipts p hp
    positivity
  · intro hmap
    exact topCandidates_ne_nil store days miles receipts h (List.map_eq_nil_iff.mp hmap)

lemma duration_pred_some (store : Store) (days : ℤ) (miles receipts : ℚ)
    (h : sameDayCases store days ≠ []) :
    predict_by_duration_pattern store days miles receipts =
      some ((List.zipWith (fun w p => w * p.2.output)
          ((topCandidates store days miles receipts).map (fun p => 1 / (p.1 + 0.01)))
          (topCandidates store days miles receipts)).sum
        / ((topCandidates store days miles receipts).map (fun p => 1 / (p.1 + 0.01))).sum) := by
  have hne := topCandidates_ne_nil store days miles receipts h
  have hpos := knn_total_pos store days miles receipts h
  simp only [predict_by_duration_pattern]
  rw [if_neg (by simp [h]), if_neg (by simp [hne]), if_pos hpos]

lemma exists_max_of_ne_nil : ∀ l : List ℚ, l ≠ [] → ∃ b ∈ l, ∀ a ∈ l, a ≤ b := by
  intro l
  induction l with
  | nil => intro h; exact absurd rfl h
  | cons x t ih =>
    intro _
    by_cases ht : t = []
    · subst ht
      exact ⟨x, List.mem_singleton_self x, by simp⟩
    · obtain ⟨b, hb, hball⟩ := ih ht
      rcases le_total x b with hxb | hbx
      · refine ⟨b, List.mem_cons_of_mem _ hb, ?_⟩
        intro a ha
        rcases List.mem_cons.mp ha with rfl | ha'
        · exact hxb
        · exact hball a ha'
      · refine ⟨x, List.mem_cons_self _ _, ?_⟩
        intro a ha
        rcases List.mem_cons.mp ha with rfl | ha'
        · exact le_refl a
        · exact le_trans (hball a ha') hbx

lemma exists_min_of_ne_nil : ∀ l : List ℚ, l ≠ [] → ∃ b ∈ l, ∀ a ∈ l, b ≤ a := by
  intro l
  induction l with
  | nil => intro h; exact absurd rfl h
  | cons x t ih =>
    intro _
    by_cases ht : t = []
    · subst ht
      exact ⟨x, List.mem_singleton_self x, by simp⟩
    · obtain ⟨b, hb, hball⟩ := ih ht
      rcases le_total b x with hbx | hxb
      · refine ⟨b, List.mem_cons_of_mem _ hb, ?_⟩
        intro a ha
        rcases List.mem_cons.mp ha with rfl | ha'
        · exact hbx
        · exact hball a ha'
      · refine ⟨x, List.mem_cons_self _ _, ?_⟩
        intro a ha
        rcases List.mem_cons.mp ha with rfl | ha'
        · exact le_refl a
        · exact le_trans hxb (hball a ha')

lemma wsum_le : ∀ (l : List (ℚ × ℚ)) (b : ℚ), (∀ p ∈ l, 0 ≤ p.1) → (∀ p ∈ l, p.2 ≤ b) →
    (l.map (fun p => p.1 * p.2)).sum ≤ (l.map Prod.fst).sum * b := by
  intro l
  induction l with
  | nil => intro b _ _; simp
  | cons x t ih =>
    intro b hw hv
    simp only [List.map_cons, List.sum_cons]
    have h1 : x.1 * x.2 ≤ x.1 * b :=
      mul_le_mul_of_nonneg_left (hv x (List.mem_cons_self _ _)) (hw x (List.mem_cons_self _ _))
    have h2 := ih b (fun p hp => hw p (List.mem_cons_of_mem _ hp))
      (fun p hp => hv p (List.mem_cons_of_mem _ hp))
    rw [add_mul]
    linarith

lemma le_wsum : ∀ (l : List (ℚ × ℚ)) (b : ℚ), (∀ p ∈ l, 0 ≤ p.1) → (∀ p ∈ l, b ≤ p.2) →
    (l.map Prod.fst).sum * b ≤ (l.map (fun p => p.1 * p.2)).sum := by
  intro l
  induction l with
  | nil => intro b _ _; simp
  | cons x t ih =>
    intro b hw hv
    simp only [List.map_cons, List.sum_cons]
    have h1 : x.1 * b ≤ x.1 * x.2 :=
      mul_le_mul_of_nonneg_left (hv x (List.mem_cons_self _ _)) (hw x (List.mem_cons_self _ _))
    have h2 := ih b (fun p hp => hw p (List.mem_cons_of_mem _ hp))
      (fun p hp => hv p (List.mem_cons_of_mem _ hp))
    rw [add_mul]
    linarith

lemma wavg_le_max (l : List (ℚ × ℚ)) (hw : ∀ p ∈ l, 0 ≤ p.1)
    (ht : 0 < (l.map Prod.fst).sum) :
    ∃ p ∈ l, (l.map (fun p => p.1 * p.2)).sum / (l.map Prod.fst).sum ≤ p.2 := by
  have hl : l ≠ [] := by rintro rfl; simp at ht
  have hsnd : l.map Prod.snd ≠ [] := by simp [hl]
  obtain ⟨b, hbmem, hball⟩ := exists_max_of_ne_nil _ hsnd
  obtain ⟨p, hp, hpb⟩ := List.mem_map.mp hbmem
  refine ⟨p, hp, ?_⟩
  rw [div_le_iff₀ ht, hpb, mul_comm]
  exact wsum_le l b hw (fun q hq => hball q.2 (List.mem_map_of_mem _ hq))

lemma min_le_wavg (l : List (ℚ × ℚ)) (hw : ∀ p ∈ l, 0 ≤ p.1)
    (ht : 0 < (l.map Prod.fst).sum) :
    ∃ p ∈ l, p.2 ≤ (l.map (fun p => p.1 * p.2)).sum / (l.map Prod.fst).sum := by
  have hl : l ≠ [] := by rintro rfl; simp at ht
  have hsnd : l.map Prod.snd ≠ [] := by simp [hl]
  obtain ⟨b, hbmem, hball⟩ := exists_min_of_ne_nil _ hsnd
  obtain ⟨p, hp, hpb⟩ := List.mem_map.mp hbmem
  refine ⟨p, hp, ?_⟩
  rw [le_div_iff₀ ht, hpb, mul_comm]
  exact le_wsum l b hw (fun q hq => hball q.2 (List.mem_map_of_mem _ hq))

lemma mean_le_max (l : List ℚ) (h : l ≠ []) : ∃ b ∈ l, l.sum / (l.length : ℚ) ≤ b := by
  obtain ⟨b, hb, hball⟩ := exists_max_of_ne_nil l h
  refine ⟨b, hb, ?_⟩
  have hpos : (0 : ℚ) < (l.length : ℚ) := by
    have := List.length_pos.mpr h
    exact_mod_cast this
  rw [div_le_iff₀ hpos]
  have hs := List.sum_le_card_nsmul l b hball
  calc l.sum ≤ l.length • b := hs
  _ = b * l.length := by rw [nsmul_eq_mul]; ring

lemma min_le_mean (l : List ℚ) (h : l ≠ []) : ∃ b ∈ l, b ≤ l.sum / (l.length : ℚ) := by
  obtain ⟨b, hb, hball⟩ := exists_min_of_ne_nil l h
  refine ⟨b, hb, ?_⟩
  have hpos : (0 : ℚ) < (l.length : ℚ) := by
    have := List.length_pos.mpr h
    exact_mod_cast this
  rw [le_div_iff₀ hpos]
  have hs := List.card_nsmul_le_sum l b hball
  calc b * (l.length : ℚ) = l.length • b := by rw [nsmul_eq_mul]; ring
  _ ≤ l.sum := hs

lemma zipWith_map_left_self {α β : Type} (f : β → α → β) (g : α → β) :
    ∀ l : List α, List.zipWith f (l.map g) l = l.map (fun a => f (g a) a) := by
  intro l
  induction l with
  | nil => rfl
  | cons x t ih => simp [ih]

lemma similar_some_mean (store : Store) (days : ℤ) (miles receipts tolerance v : ℚ)
    (hv : find_similar_cases store days miles receipts tolerance = some v) :
    store.filter (similarB days miles receipts tolerance) ≠ [] ∧
      v = ((store.filter (similarB days miles receipts tolerance)).map Case.output).sum
        / ((store.filter (similarB days miles receipts tolerance)).length : ℚ) := by
  by_cases h : store.filter (similarB days miles receipts tolerance) = []
  · rw [find_similar_cases] at hv
    simp [h] at hv
  · rw [find_similar_cases] at hv
    rw [if_neg (by simp [h])] at hv
    exact ⟨h, (Option.some.injEq _ _ ▸ hv.symm : _)⟩

lemma bucketLoop_some_mean (store : Store) (days : ℤ) (miles receipts : ℚ) :
    ∀ (bs : List (ℚ × ℚ)) (v : ℚ), bucketLoop store days miles receipts bs = some v →
      ∃ low high, (low, high) ∈ bs ∧ low ≤ receipts ∧ receipts < high ∧
        ((store.filter (fun c => decide (low ≤ c.receipts ∧ c.receipts < high))).filter
            (bucketFilterB days miles)) ≠ [] ∧
        v = (((store.filter (fun c => decide (low ≤ c.receipts ∧ c.receipts < high))).filter
              (bucketFilterB days miles)).map Case.output).sum
          / (((store.filter (fun c => decide (low ≤ c.receipts ∧ c.receipts < high))).filter
              (bucketFilterB days miles)).length : ℚ) := by
  intro bs
  induction bs with
  | nil => intro v hv; exact absurd hv (by simp [bucketLoop])
  | cons hd tl ih =>
    intro v hv
    obtain ⟨low, high⟩ := hd
    simp only [bucketLoop] at hv
    by_cases hcond : low ≤ receipts ∧ receipts < high ∧
        ¬(store.filter (fun c => decide (low ≤ c.receipts ∧ c.receipts < high))).isEmpty
    · rw [if_pos hcond] at hv
      by_cases hsim : ((store.filter (fun c => decide (low ≤ c.receipts ∧ c.receipts < high))).filter
          (bucketFilterB days miles)).isEmpty
      · rw [if_pos hsim] at hv
        obtain ⟨l2, h2, rest⟩ := ih v hv
        exact ⟨l2, h2, List.mem_cons_of_mem _ rest.1, rest.2⟩
      · rw [if_neg hsim] at hv
        refine ⟨low, high, List.mem_cons_self _ _, hcond.1, hcond.2.1, ?_, ?_⟩
        · intro hnil
          rw [hnil] at hsim
          simp at hsim
        · exact (Option.some.injEq _ _ ▸ hv).symm
    · rw [if_neg hcond] at hv
      obtain ⟨l2, h2, rest⟩ := ih v hv
      exact ⟨l2, h2, List.mem_cons_of_mem _ rest.1, rest.2⟩

lemma bucketLoop_none_of_ge (store : Store) (days : ℤ) (miles receipts : ℚ)
    (h : (3000 : ℚ) ≤ receipts) :
    ∀ bs : List (ℚ × ℚ), (∀ p ∈ bs, p.2 ≤ 3000) →
      bucketLoop store days miles receipts bs = none := by
  intro bs
  induction bs with
  | nil => intro _; rfl
  | cons hd tl ih =>
    intro hb
    obtain ⟨low, high⟩ := hd
    have hh : high ≤ 3000 := by simpa using hb (low, high) (List.mem_cons_self _ _)
    simp only [bucketLoop]
    rw [if_neg]
    · exact ih (fun p hp => hb p (List.mem_cons_of_mem _ hp))
    · rintro ⟨-, h2, -⟩
      linarith

/-!
Claim theorems.  Each theorem settles one claim about
`hybrid_reimbursement.py`; the witnesses instantiate the theorems at
concrete inputs.
-/

/-- C1: for every training store and coerced request (non-negative integer
days, non-negative rational miles and receipts), the final prediction of
`calculate_reimbursement` is the weighted average over exactly the
estimators that return a result, with weights ExactMatch 10, SimilarCase 5,
DurationKNN 3, ReceiptBucket 2, EnhancedLinear 1, BasicLinear 0.5 (the
linear two always contributing), clamped to [50, 3000] and rounded to two
decimals. -/
theorem c1_ensemble_weighted_average (store : Store) (days : ℕ) (miles receipts : ℚ)
    (hm : 0 ≤ miles) (hr : 0 ≤ receipts) :
    calculate_reimbursement store (.num (days : ℚ)) (.num miles) (.num receipts) =
      round2 (min (max
        (((find_exact_match store (days : ℤ) miles receipts).elim 0 (fun p => p * 10)
          + (find_similar_cases store (days : ℤ) miles receipts 20).elim 0 (fun p => p * 5)
          + (predict_by_duration_pattern store (days : ℤ) miles receipts).elim 0 (fun p => p * 3)
          + (predict_by_receipt_bucket store (days : ℤ) miles receipts).elim 0 (fun p => p * 2)
          + enhanced_linear_predict (days : ℤ) miles receipts * 1
          + linear_regression_predict (days : ℤ) miles receipts * 0.5)
        / ((if (find_exact_match store (days : ℤ) miles receipts).isSome then 10 else 0)
          + (if (find_similar_cases store (days : ℤ) miles receipts 20).isSome then 5 else 0)
          + (if (predict_by_duration_pattern store (days : ℤ) miles receipts).isSome then 3 else 0)
          + (if (predict_by_receipt_bucket store (days : ℤ) miles receipts).isSome then 2 else 0)
          + 1 + 0.5)) 50.0) 3000.0) := by
  simp only [calculate_reimbursement, coerceDays_nat, coerceReal_nonneg _ hm,
    coerceReal_nonneg _ hr]
  rw [predict_eq]

/-- Witness for C1 at the empty store and request (3, 150.5, 75.25). -/
theorem c1_ensemble_weighted_average_witness :
    calculate_reimbursement [] (.num ((3 : ℕ) : ℚ)) (.num 150.5) (.num 75.25) =
      round2 (min (max
        (((find_exact_match [] ((3 : ℕ) : ℤ) 150.5 75.25).elim 0 (fun p => p * 10)
          + (find_similar_cases [] ((3 : ℕ) : ℤ) 150.5 75.25 20).elim 0 (fun p => p * 5)
          + (predict_by_duration_pattern [] ((3 : ℕ) : ℤ) 150.5 75.25).elim 0 (fun p => p * 3)
          + (predict_by_receipt_bucket [] ((3 : ℕ) : ℤ) 150.5 75.25).elim 0 (fun p => p * 2)
          + enhanced_linear_predict ((3 : ℕ) : ℤ) 150.5 75.25 * 1
          + linear_regression_predict ((3 : ℕ) : ℤ) 150.5 75.25 * 0.5)
        / ((if (find_exact_match [] ((3 : ℕ) : ℤ) 150.5 75.25).isSome then 10 else 0)
          + (if (find_similar_cases [] ((3 : ℕ) : ℤ) 150.5 75.25 20).isSome then 5 else 0)
          + (if (predict_by_duration_pattern [] ((3 : ℕ) : ℤ) 150.5 75.25).isSome then 3 else 0)
          + (if (predict_by_receipt_bucket [] ((3 : ℕ) : ℤ) 150.5 75.25).isSome then 2 else 0)
          + 1 + 0.5)) 50.0) 3000.0) :=
  c1_ensemble_weighted_average [] 3 150.5 75.25 (by norm_num) (by norm_num)

/-- C2: for every store and valid non-negative numeric input triple,
`calculate_reimbursement` returns a number in [50, 3000] that is an integer
multiple of 1/100, i.e. rounded to exactly two decimal places. -/
theorem c2_output_bounded_two_decimals (store : Store) (days : ℕ) (miles receipts : ℚ)
    (hm : 0 ≤ miles) (hr : 0 ≤ receipts) :
    ∃ n : ℤ, calculate_reimbursement store (.num (days : ℚ)) (.num miles) (.num receipts)
        = (n : ℚ) / 100
      ∧ 50 ≤ (n : ℚ) / 100 ∧ (n : ℚ) / 100 ≤ 3000 := by
  simp only [calculate_reimbursement, coerceDays_nat, coerceReal_nonneg _ hm,
    coerceReal_nonneg _ hr]
  exact round2_clamp_bounds _

/-- Witness for C2 at the empty store and request (5, 300, 200). -/
theorem c2_output_bounded_two_decimals_witness :
    ∃ n : ℤ, calculate_reimbursement [] (.num ((5 : ℕ) : ℚ)) (.num 300) (.num 200)
        = (n : ℚ) / 100
      ∧ 50 ≤ (n : ℚ) / 100 ∧ (n : ℚ) / 100 ≤ 3000 :=
  c2_output_bounded_two_decimals [] 5 300 200 (by norm_num) (by norm_num)

/-- C3: for every raw input triple (negative and non-coercible inputs
included), `calculate_reimbursement` always returns a number that is either
a two-decimal value in [50, 3000] or exactly 300; and whenever coercion of
any input fails, it takes the fallback branch, which resolves to exactly
300 because re-coercion of the same inputs fails again. -/
theorem c3_fallback_chain_total (store : Store) (a b c : Raw) :
    ((∃ n : ℤ, calculate_reimbursement store a b c = (n : ℚ) / 100
        ∧ 50 ≤ (n : ℚ) / 100 ∧ (n : ℚ) / 100 ≤ 3000)
      ∨ calculate_reimbursement store a b c = 300)
    ∧ (((coerceDays a).isNone ∨ (coerceReal b).isNone ∨ (coerceReal c).isNone) →
        calculate_reimbursement store a b c = basicFallback a b c
          ∧ basicFallback a b c = 300) := by
  rcases a with qa | _ <;> rcases b with qb | _ <;> rcases c with qc | _
  case num.num.num =>
    refine ⟨Or.inl ?_, ?_⟩
    · simp only [calculate_reimbursement, coerceDays, coerceReal]
      exact round2_clamp_bounds _
    · intro h
      simp [coerceDays, coerceReal] at h
  all_goals exact ⟨Or.inr (by norm_num [calculate_reimbursement, basicFallback,
      coerceDays, coerceReal]),
    fun _ => ⟨rfl, by norm_num [basicFallback, coerceDays, coerceReal]⟩⟩

/-- Witness for C3 at a failing day input. -/
theorem c3_fallback_chain_total_witness :
    calculate_reimbursement [] Raw.bad (Raw.num 1) (Raw.num 2) =
        basicFallback Raw.bad (Raw.num 1) (Raw.num 2)
      ∧ basicFallback Raw.bad (Raw.num 1) (Raw.num 2) = 300 :=
  (c3_fallback_chain_total [] Raw.bad (Raw.num 1) (Raw.num 2)).2 (Or.inl rfl)

/-- C4: on the empty training store only the two linear estimators
contribute, with weights 1.0 and 0.5, so the output is
round2(clamp((EL*1.0 + BL*0.5)/1.5)). -/
theorem c4_empty_store_linear_blend (days : ℕ) (miles receipts : ℚ)
    (hm : 0 ≤ miles) (hr : 0 ≤ receipts) :
    calculate_reimbursement [] (.num (days : ℚ)) (.num miles) (.num receipts) =
      round2 (min (max
        ((enhanced_linear_predict (days : ℤ) miles receipts * 1.0
          + linear_regression_predict (days : ℤ) miles receipts * 0.5) / 1.5) 50.0) 3000.0) := by
  simp only [calculate_reimbursement, coerceDays_nat, coerceReal_nonneg _ hm,
    coerceReal_nonneg _ hr]
  rw [predict_eq]
  norm_num [find_exact_match, find_similar_cases, predict_by_duration_pattern,
    predict_by_receipt_bucket, bucketLoop, receipt_buckets, sameDayCases]

/-- Witness for C4 at request (5, 300, 200). -/
theorem c4_empty_store_linear_blend_witness :
    calculate_reimbursement [] (.num ((5 : ℕ) : ℚ)) (.num 300) (.num 200) =
      round2 (min (max
        ((enhanced_linear_predict ((5 : ℕ) : ℤ) 300 200 * 1.0
          + linear_regression_predict ((5 : ℕ) : ℤ) 300 200 * 0.5) / 1.5) 50.0) 3000.0) :=
  c4_empty_store_linear_blend 5 300 200 (by norm_num) (by norm_num)

/-- C5: EnhancedLinear equals BasicLinear plus cumulative adjustments, each
condition tested on the original inputs, and within each rule family the
two branches are mutually exclusive. -/
theorem c5_enhanced_linear_adjustments (days : ℤ) (miles receipts : ℚ) :
    (enhanced_linear_predict days miles receipts =
      linear_regression_predict days miles receipts
      + (if 1500 < receipts ∧ days ≤ 3 then -((receipts - 1500) * 0.3) else 0)
      + (if 1500 < receipts ∧ 3 < days then -((receipts - 1500) * 0.1) else 0)
      + (if 4 ≤ days ∧ days ≤ 6 then (days : ℚ) * 15 else 0)
      + (if 10 ≤ days then ((days : ℚ) - 9) * 20 else 0)
      + (if 1000 < miles ∧ 7 ≤ days then (miles - 1000) * 0.1 else 0)
      + (if 1000 < miles ∧ days < 7 then -((miles - 1000) * 0.05) else 0))
    ∧ ¬((1500 < receipts ∧ days ≤ 3) ∧ (1500 < receipts ∧ 3 < days))
    ∧ ¬((4 ≤ days ∧ days ≤ 6) ∧ 10 ≤ days)
    ∧ ¬((1000 < miles ∧ 7 ≤ days) ∧ (1000 < miles ∧ days < 7)) := by
  refine ⟨?_, ?_, by omega, ?_⟩
  · simp only [enhanced_linear_predict]
    rw [ite_add_sub_split, ite_add_split, ite_add_split, ite_sub_sub_split]
    simp only [not_le]
  · rintro ⟨⟨-, h1⟩, ⟨-, h2⟩⟩
    omega
  · rintro ⟨⟨-, h1⟩, ⟨-, h2⟩⟩
    omega

/-- Witness for C5 at input (5, 300, 200): the decomposition instantiated. -/
theorem c5_enhanced_linear_adjustments_witness :
    enhanced_linear_predict 5 300 200 =
      linear_regression_predict 5 300 200
      + (if (1500 : ℚ) < 200 ∧ (5 : ℤ) ≤ 3 then -(((200 : ℚ) - 1500) * 0.3) else 0)
      + (if (1500 : ℚ) < 200 ∧ (3 : ℤ) < 5 then -(((200 : ℚ) - 1500) * 0.1) else 0)
      + (if (4 : ℤ) ≤ 5 ∧ (5 : ℤ) ≤ 6 then ((5 : ℤ) : ℚ) * 15 else 0)
      + (if (10 : ℤ) ≤ 5 then (((5 : ℤ) : ℚ) - 9) * 20 else 0)
      + (if (1000 : ℚ) < 300 ∧ (7 : ℤ) ≤ 5 then ((300 : ℚ) - 1000) * 0.1 else 0)
      + (if (1000 : ℚ) < 300 ∧ (5 : ℤ) < 7 then -(((300 : ℚ) - 1000) * 0.05) else 0) :=
  (c5_enhanced_linear_adjustments 5 300 200).1

/-- C6: ExactMatch returns the output of the first case in load order whose
day count equals the request's and whose miles and receipts are within one
unit, no result when no case matches; and on the store containing
(3, 100, 50, 400) the query (3, 100.4, 50.3) fires and returns 400. -/
theorem c6_exact_match_first_within_tolerance :
    (∀ (pre post : Store) (c : Case) (days : ℤ) (miles receipts : ℚ),
        exactMatchB days miles receipts c = true →
        (∀ c' ∈ pre, exactMatchB days miles receipts c' = false) →
        find_exact_match (pre ++ c :: post) days miles receipts = some c.output)
    ∧ (∀ (store : Store) (days : ℤ) (miles receipts : ℚ),
        (∀ c ∈ store, exactMatchB days miles receipts c = false) →
        find_exact_match store days miles receipts = none)
    ∧ (∀ (days : ℤ) (miles receipts : ℚ) (c : Case),
        exactMatchB days miles receipts c = true ↔
          (c.days = (days : ℚ) ∧ |c.miles - miles| ≤ 1 ∧ |c.receipts - receipts| ≤ 1))
    ∧ find_exact_match [⟨3, 100, 50, 400⟩] 3 100.4 50.3 = some 400 := by
  refine ⟨?_, ?_, ?_, ?_⟩
  · intro pre post c days miles receipts hc hpre
    unfold find_exact_match
    rw [List.find?_append]
    have hpre' : pre.find? (exactMatchB days miles receipts) = none :=
      List.find?_eq_none.mpr (by intro x hx; simp [hpre x hx])
    rw [hpre']
    simp [List.find?_cons_of_pos _ hc]
  · intro store days miles receipts h
    unfold find_exact_match
    rw [List.find?_eq_none.mpr (by intro x hx; simp [h x hx])]
    rfl
  · intro days miles receipts c
    simp [exactMatchB, and_assoc]
  · norm_num [find_exact_match, exactMatchB, List.find?_cons, abs_le]

/-- Witness for C6: the first-match clause applied with one non-matching
case ahead of the matching one. -/
theorem c6_exact_match_first_within_tolerance_witness :
    find_exact_match [⟨9, 9, 9, 111⟩, ⟨3, 100, 50, 400⟩] 3 100.4 50.3 = some 400 :=
  c6_exact_match_first_within_tolerance.1 [⟨9, 9, 9, 111⟩] [] ⟨3, 100, 50, 400⟩ 3 100.4 50.3
    (by norm_num [exactMatchB, abs_le])
    (by
      intro c' hc'
      simp only [List.mem_singleton] at hc'
      subst hc'
      norm_num [exactMatchB, abs_le])

/-- C7: DurationPatternKNN returns no result exactly when no training case
shares the request's day count; it selects at most five candidates; and on
a non-empty duration bucket it returns the inverse-distance weighted mean
of the outputs of the selected lowest-score same-day cases, the weight of a
candidate with score s being 1/(s + 0.01). -/
theorem c7_duration_knn_characterization (store : Store) (days : ℤ) (miles receipts : ℚ) :
    (predict_by_duration_pattern store days miles receipts = none ↔
      sameDayCases store days = [])
    ∧ (topCandidates store days miles receipts).length ≤ 5
    ∧ (sameDayCases store days ≠ [] →
        predict_by_duration_pattern store days miles receipts =
          some ((List.zipWith (fun w p => w * p.2.output)
              ((topCandidates store days miles receipts).map (fun p => 1 / (p.1 + 0.01)))
              (topCandidates store days miles receipts)).sum
            / ((topCandidates store days miles receipts).map (fun p => 1 / (p.1 + 0.01))).sum)) := by
  have hlen : (topCandidates store days miles receipts).length ≤ 5 := by
    rw [topCandidates_length]
    exact min_le_left _ _
  by_cases h : sameDayCases store days = []
  · refine ⟨by simp [predict_by_duration_pattern, h], hlen, fun hc => absurd h hc⟩
  · refine ⟨?_, hlen, fun _ => duration_pred_some store days miles receipts h⟩
    rw [duration_pred_some store days miles receipts h]
    simp [h]

/-- Witness for C7 on a singleton store whose only case shares the queried
day count. -/
theorem c7_duration_knn_characterization_witness :
    predict_by_duration_pattern [⟨3, 100, 50, 400⟩] 3 120 60 =
      some ((List.zipWith (fun w p => w * p.2.output)
          ((topCandidates [⟨3, 100, 50, 400⟩] 3 120 60).map (fun p => 1 / (p.1 + 0.01)))
          (topCandidates [⟨3, 100, 50, 400⟩] 3 120 60)).sum
        / ((topCandidates [⟨3, 100, 50, 400⟩] 3 120 60).map (fun p => 1 / (p.1 + 0.01))).sum) :=
  (c7_duration_knn_characterization [⟨3, 100, 50, 400⟩] 3 120 60).2.2
    (by norm_num [sameDayCases])

/-- C8: for every store and request with receipts at least 3000, the bucket
lookup fails (every bucket's upper edge is at most 3000), so
ReceiptBucketAverage contributes no vote. -/
theorem c8_receipt_bucket_no_vote_ge_3000 (store : Store) (days : ℤ) (miles receipts : ℚ)
    (h : 3000 ≤ receipts) :
    predict_by_receipt_bucket store days miles receipts = none := by
  apply bucketLoop_none_of_ge store days miles receipts h
  intro p hp
  simp only [receipt_buckets] at hp
  fin_cases hp <;> norm_num

/-- Witness for C8 at receipts 3500. -/
theorem c8_receipt_bucket_no_vote_ge_3000_witness :
    predict_by_receipt_bucket [] 1 0 3500 = none :=
  c8_receipt_bucket_no_vote_ge_3000 [] 1 0 3500 (by norm_num)

/-- C9: with an empty store and inputs days 5, miles 300, receipts 200,
BasicLinear is 727.2202, EnhancedLinear adds only the 4-to-6-day bonus
giving 802.2202, and the final output is exactly 777.22. -/
theorem c9_concrete_empty_store_example :
    linear_regression_predict 5 300 200 = 727.2202
    ∧ enhanced_linear_predict 5 300 200 = 802.2202
    ∧ calculate_reimbursement [] (.num 5) (.num 300) (.num 200) = 777.22 := by
  refine ⟨by norm_num [linear_regression_predict], ?_, ?_⟩
  · norm_num [enhanced_linear_predict, linear_regression_predict]
  · norm_num [calculate_reimbursement, coerceDays, coerceReal, pytrunc,
      predict, find_exact_match, find_similar_cases, predict_by_duration_pattern,
      predict_by_receipt_bucket, bucketLoop, receipt_buckets, sameDayCases,
      enhanced_linear_predict, linear_regression_predict, round2, roundHalfEvenInt,
      Int.floor_eq_iff]

/-- C10: whenever SimilarCaseAverage, DurationPatternKNN or
ReceiptBucketAverage returns a result, that result lies between the
minimum and maximum output of the training cases it considered
(the qualifying neighbors, the selected lowest-score same-day candidates,
or the day/mile-filtered cases of the matched bucket). -/
theorem c10_averages_within_observed_outputs (store : Store) (days : ℤ)
    (miles receipts tolerance v : ℚ) :
    (find_similar_cases store days miles receipts tolerance = some v →
      (∃ c ∈ store.filter (similarB days miles receipts tolerance), c.output ≤ v) ∧
      (∃ c ∈ store.filter (similarB days miles receipts tolerance), v ≤ c.output))
    ∧ (predict_by_duration_pattern store days miles receipts = some v →
      (∃ p ∈ topCandidates store days miles receipts, p.2.output ≤ v) ∧
      (∃ p ∈ topCandidates store days miles receipts, v ≤ p.2.output))
    ∧ (predict_by_receipt_bucket store days miles receipts = some v →
      ∃ low high, (low, high) ∈ receipt_buckets ∧
        (∃ c ∈ (store.filter (fun c => decide (low ≤ c.receipts ∧ c.receipts < high))).filter
            (bucketFilterB days miles), c.output ≤ v) ∧
        (∃ c ∈ (store.filter (fun c => decide (low ≤ c.receipts ∧ c.receipts < high))).filter
            (bucketFilterB days miles), v ≤ c.output)) := by
  refine ⟨?_, ?_, ?_⟩
  · intro hv
    obtain ⟨hne, hmean⟩ := similar_some_mean store days miles receipts tolerance v hv
    have hmne : (store.filter (similarB days miles receipts tolerance)).map Case.output ≠ [] :=
      fun hx => hne (List.map_eq_nil_iff.mp hx)
    constructor
    · obtain ⟨b, hb, hble⟩ := min_le_mean _ hmne
      obtain ⟨c, hc, rfl⟩ := List.mem_map.mp hb
      refine ⟨c, hc, ?_⟩
      rw [hmean]
      simpa [List.length_map] using hble
    · obtain ⟨b, hb, hble⟩ := mean_le_max _ hmne
      obtain ⟨c, hc, rfl⟩ := List.mem_map.mp hb
      refine ⟨c, hc, ?_⟩
      rw [hmean]
      simpa [List.length_map] using hble
  · intro hv
    by_cases h : sameDayCases store days = []
    · rw [predict_by_duration_pattern, if_pos (by simp [h])] at hv
      exact absurd hv (by simp)
    · have hform := duration_pred_some store days miles receipts h
      rw [hform] at hv
      have hv' : v = (List.zipWith (fun w p => w * p.2.output)
          ((topCandidates store days miles receipts).map (fun p => 1 / (p.1 + 0.01)))
          (topCandidates store days miles receipts)).sum
        / ((topCandidates store days miles receipts).map (fun p => 1 / (p.1 + 0.01))).sum :=
        (Option.some.injEq _ _ ▸ hv).symm
      set top := topCandidates store days miles receipts with htop
      set L : List (ℚ × ℚ) := top.map (fun p => (1 / (p.1 + 0.01), p.2.output)) with hL
      have hfst : L.map Prod.fst = top.map (fun p => 1 / (p.1 + 0.01)) := by
        rw [hL, List.map_map]
        rfl
      have hmul : L.map (fun q => q.1 * q.2) =
          top.map (fun p => (1 / (p.1 + 0.01)) * p.2.output) := by
        rw [hL, List.map_map]
        rfl
      have hzip : List.zipWith (fun w p => w * p.2.output)
          (top.map (fun p => 1 / (p.1 + 0.01))) top =
          top.map (fun p => (1 / (p.1 + 0.01)) * p.2.output) :=
        zipWith_map_left_self _ _ top
      have hw : ∀ q ∈ L, 0 ≤ q.1 := by
        intro q hq
        rw [hL] at hq
        obtain ⟨p, hp, rfl⟩ := List.mem_map.mp hq
        have hs := topCandidates_score_nonneg store days miles receipts p (htop ▸ hp)
        positivity
      have ht : 0 < (L.map Prod.fst).sum := by
        rw [hfst]
        exact htop ▸ knn_total_pos store days miles receipts h
      have hveq : v = (L.map (fun q => q.1 * q.2)).sum / (L.map Prod.fst).sum := by
        rw [hmul, hfst, hv', hzip]
      constructor
      · obtain ⟨q, hq, hqle⟩ := min_le_wavg L hw ht
        rw [hL] at hq
        obtain ⟨p, hp, rfl⟩ := List.mem_map.mp hq
        exact ⟨p, hp, by rw [hveq]; exact hqle⟩
      · obtain ⟨q, hq, hqle⟩ := wavg_le_max L hw ht
        rw [hL] at hq
        obtain ⟨p, hp, rfl⟩ := List.mem_map.mp hq
        exact ⟨p, hp, by rw [hveq]; exact hqle⟩
  · intro hv
    obtain ⟨low, high, hmem, -, -, hne, hmean⟩ :=
      bucketLoop_some_mean store days miles receipts receipt_buckets v hv
    refine ⟨low, high, hmem, ?_, ?_⟩
    · have hmne : ((store.filter (fun c => decide (low ≤ c.receipts ∧ c.receipts < high))).filter
          (bucketFilterB days miles)).map Case.output ≠ [] :=
        fun hx => hne (List.map_eq_nil_iff.mp hx)
      obtain ⟨b, hb, hble⟩ := min_le_mean _ hmne
      obtain ⟨c, hc, rfl⟩ := List.mem_map.mp hb
      refine ⟨c, hc, ?_⟩
      rw [hmean]
      simpa [List.length_map] using hble
    · have hmne : ((store.filter (fun c => decide (low ≤ c.receipts ∧ c.receipts < high))).filter
          (bucketFilterB days miles)).map Case.output ≠ [] :=
        fun hx => hne (List.map_eq_nil_iff.mp hx)
      obtain ⟨b, hb, hble⟩ := mean_le_max _ hmne
      obtain ⟨c, hc, rfl⟩ := List.mem_map.mp hb
      refine ⟨c, hc, ?_⟩
      rw [hmean]
      simpa [List.length_map] using hble

/-- Witness for C10: the SimilarCaseAverage clause on a singleton store. -/
theorem c10_averages_within_observed_outputs_witness :
    (∃ c ∈ List.filter (similarB 3 100 50 20) [(⟨3, 100, 50, 400⟩ : Case)], c.output ≤ 400)
    ∧ (∃ c ∈ List.filter (similarB 3 100 50 20) [(⟨3, 100, 50, 400⟩ : Case)], 400 ≤ c.output) :=
  (c10_averages_within_observed_outputs [⟨3, 100, 50, 400⟩] 3 100 50 20 400).1
    (by norm_num [find_similar_cases, similarB])

end Hybrid
